import Mathlib

/-!
Shallow embedding of the menu / validated-input engine of `hw_6/terminal_ui.py`
and of the file-group actions built on it.  Pure string manipulation is
translated directly; the interactive pieces (the `input()` loop of
`validated_input`, the `os.remove` side effects of `rm_files`, the printed
confirmation lines) are made explicit: user input becomes a list of lines fed
to the prompt, and side effects become components of the returned values.
A validator — a Python function that either returns `None` or raises
`ValidationError(msg)` — becomes a function `String → Option String` where
`some msg` is the raised error.
-/

namespace TerminalUI

/-! ## Models of the Python string primitives the source relies on -/

/-- The ASCII whitespace characters recognised by Python's `str.isspace` and
stripped by `float()`; the source is only ever fed ASCII/console input, so the
further Unicode whitespace of CPython is not modelled. -/
def isPySpace (c : Char) : Bool :=
  c = ' ' || c = '\t' || c = '\n' || c = '\r' || c = '\x0b' || c = '\x0c'

/-- Python `str.isspace`: true iff the string is nonempty and every character
is whitespace. -/
def pyStrIsSpace (s : String) : Bool :=
  !s.data.isEmpty && s.data.all isPySpace

def isPyDigit (c : Char) : Bool :=
  '0' ≤ c && c ≤ '9'

/-- After a first digit has been read: consume further digits, allowing a
single underscore between two digits (Python numeric-literal grammar).  An
underscore not followed by a digit is left in the remaining input. -/
def eatDigitsAux : List Char → List Char
  | [] => []
  | c :: rest =>
    if isPyDigit c then eatDigitsAux rest
    else if c = '_' then
      match rest with
      | d :: rest2 => if isPyDigit d then eatDigitsAux rest2 else c :: d :: rest2
      | [] => [c]
    else c :: rest

/-- Consume a digit group (one or more digits, single underscores allowed
between digits); `none` when the input does not start with a digit, otherwise
`some` of the remaining input. -/
def eatDigits : List Char → Option (List Char)
  | [] => none
  | c :: rest => if isPyDigit c then some (eatDigitsAux rest) else none

/-- The mantissa of a Python float literal: `digits [. [digits]]` or
`. digits`; returns the remaining input. -/
def parseMantissa (l : List Char) : Option (List Char) :=
  match eatDigits l with
  | some rest =>
    match rest with
    | '.' :: rest2 =>
      match eatDigits rest2 with
      | some r => some r
      | none => some rest2
    | _ => some rest
  | none =>
    match l with
    | '.' :: rest2 => eatDigits rest2
    | _ => none

/-- An optional exponent `(e|E) [+|-] digits`; an `e` not followed by a valid
exponent makes the parse fail, no `e` leaves the input unchanged. -/
def parseExp : List Char → Option (List Char)
  | [] => some []
  | c :: rest =>
    if c = 'e' || c = 'E' then
      match rest with
      | d :: rest2 => if d = '+' || d = '-' then eatDigits rest2 else eatDigits (d :: rest2)
      | [] => none
    else some (c :: rest)

/-- Strip leading and trailing whitespace, as `float()` does. -/
def pyStripChars (l : List Char) : List Char :=
  ((l.dropWhile isPySpace).reverse.dropWhile isPySpace).reverse

/-- Modelled from the spec: whether CPython's builtin `float(value)` succeeds
(the builtin is not part of the repository).  Strips surrounding whitespace,
allows an optional sign, then either a special value (`inf`, `infinity`,
`nan`, case-insensitive) or a mantissa with an optional exponent; the whole
input must be consumed. -/
def pyFloatParses (s : String) : Bool :=
  let l := pyStripChars s.data
  let body :=
    match l with
    | c :: rest => if c = '+' || c = '-' then rest else l
    | [] => []
  let low := body.map Char.toLower
  if low = "inf".data || low = "infinity".data || low = "nan".data then true
  else
    match parseMantissa body with
    | some rest =>
      match parseExp rest with
      | some [] => true
      | _ => false
    | none => false

def pyInAux (needle : List Char) : List Char → Bool
  | [] => List.isPrefixOf needle []
  | c :: rest => List.isPrefixOf needle (c :: rest) || pyInAux needle rest

/-- Python's `needle in hay` substring test. -/
def pyIn (needle hay : String) : Bool :=
  pyInAux needle.data hay.data

/-- Python's `s.endswith(suffix)`. -/
def pyEndsWith (s suffix : String) : Bool :=
  List.isSuffixOf suffix.data s.data

/-- The first occurrence of `sep` in `l`: `some (pre, post)` where `l` is
`pre ++ sep ++ post` and `pre` has no earlier occurrence; `none` when `sep`
does not occur. -/
def findSplit (sep : List Char) : List Char → Option (List Char × List Char)
  | [] => none
  | c :: rest =>
    if List.isPrefixOf sep (c :: rest) then some ([], (c :: rest).drop sep.length)
    else
      match findSplit sep rest with
      | some (pre, post) => some (c :: pre, post)
      | none => none

/-- Splitting driven by explicit fuel so the recursion is structural: each
found separator occurrence strictly shortens the remaining input (a nonempty
separator consumes at least one character), so fuel `l.length + 1` always
reaches the `findSplit … = none` base case before running out. -/
def pySplitFuel (sep : List Char) : Nat → List Char → List (List Char)
  | 0, l => [l]
  | fuel + 1, l =>
    match findSplit sep l with
    | none => [l]
    | some (pre, post) => pre :: pySplitFuel sep fuel post

/-- Python's `value.split(sep)` for an explicit separator: split on every
occurrence of `sep`, keeping empty fields, so that `"".split(sep) = [""]`.
Python raises `ValueError` on an empty separator; the source only ever passes
the nonempty default `" "`, and for an empty separator this model returns the
whole string unsplit. -/
def pySplit (sep value : String) : List String :=
  if sep.data.isEmpty then [value]
  else (pySplitFuel sep.data (value.data.length + 1) value.data).map (fun l => ⟨l⟩)

/-! ## Validators (`terminal_ui.py` lines 190–238)

A Python validator takes the candidate string and either returns `None` or
raises `ValidationError(message)`; here it returns `none` or `some message`. -/

abbrev Validator := String → Option String

/-- `not_empty` (lines 190–192): fails when `len(value) == 0 or value.isspace()`. -/
def not_empty (value : String) : Option String :=
  if value.data.length == 0 || pyStrIsSpace value then
    some "Значение не должно быть пустым."
  else none

/-- The error message of `list_len_validator` (line 199), reporting the
required and the actual token count. -/
def lenErrMsg (required actual : Nat) : String :=
  s!"Количество элементов должно равняться {required}. Сейчас {actual}."

/-- `list_len_validator(length, sep)` (lines 195–202): fails when
`len(value.split(sep)) != length`, reporting the actual count. -/
def list_len_validator (length : Nat) (sep : String) : Validator :=
  fun value =>
    if (pySplit sep value).length ≠ length then
      some (lenErrMsg length (pySplit sep value).length)
    else none

/-- The per-element error line of `list_elems_validator` (line 217): the
offending element's value, its index, and the caught exception's message. -/
def elemErrMsg (elem : String) (i : Nat) (msg : String) : String :=
  s!"Ошибка для элемента \x27{elem}\x27 под номером {i}: {msg}"

/-- The error lines collected by `list_elems_validator`'s nested loops (lines
210–218): for each token (with its index, token-major order) and each element
validator, the tagged message of each failure. -/
def elemErrors (elem_validators : List Validator) (toks : List String) : List String :=
  toks.enum.flatMap (fun p =>
    elem_validators.filterMap (fun v => (v p.2).map (elemErrMsg p.2 p.1)))

/-- `list_elems_validator(sep, elem_validators)` (lines 205–222): splits on
`sep`, applies every element validator to every token, collects every tagged
failure, and raises once with the newline-joined collection when it is
nonempty. -/
def list_elems_validator (sep : String) (elem_validators : List Validator) : Validator :=
  fun value =>
    if (elemErrors elem_validators (pySplit sep value)).length ≠ 0 then
      some (String.intercalate "\n" (elemErrors elem_validators (pySplit sep value)))
    else none

/-- `only_digit_validator` (lines 225–233): fails when `float(value)` raises
`ValueError`. -/
def only_digit_validator (value : String) : Option String :=
  if pyFloatParses value then none
  else some s!"Значение \x27{value}\x27 не является числом."

/-! ## The validated-input prompt (`terminal_ui.py` lines 51–85)

The Python loop reads a line, runs every validator inside its own
`try/except ValidationError`, collects the error strings, prints them all and
re-reads on failure, and on success calls `on_successful_confirm()` once and
returns the line.  The interaction is made explicit: the lines the user would
type become an input list, and the observable outcome (the returned value,
how many times the prompt read a line, which error batches it printed, how
often the hook ran) becomes the result record.  An exhausted input list —
where Python would block on `input()` — yields `accepted = none`. -/

structure InputOutcome where
  accepted : Option String
  prompts : Nat
  displayed : List (List String)
  hookRuns : Nat
  deriving DecidableEq

/-- The `for validator in validators` loop of lines 75–79: every validator is
applied to the raw value, and the messages of all that fail are collected in
order. -/
def runValidators (validators : List Validator) (value : String) : List String :=
  validators.filterMap (fun v => v value)

/-- `validated_input` (lines 51–85) over an explicit list of input lines. -/
def validated_input (validators : List Validator) : List String → InputOutcome
  | [] => ⟨none, 0, [], 0⟩
  | value :: rest =>
    let errors := runValidators validators value
    if errors.length > 0 then
      let r := validated_input validators rest
      ⟨r.accepted, r.prompts + 1, errors :: r.displayed, r.hookRuns⟩
    else
      ⟨some value, 1, [], 1⟩

/-! ## Non-selectable resolution in `select` (`terminal_ui.py` lines 102–117) -/

/-- Python's `list.index(x)`: the index of the first occurrence, `none` for
the `ValueError` raised when `x` does not occur. -/
def pyIndex (l : List String) (x : String) : Option Nat :=
  match l with
  | [] => none
  | a :: rest => if a = x then some 0 else (pyIndex rest x).map (· + 1)

/-- The comprehension of lines 108–111: each non-selectable button's name is
resolved to its index in the displayed name list with `button_names.index`;
the first unresolvable name raises `ValueError`, modelled by `none` for the
whole list. -/
def resolve_non_selectable (button_names : List String) : List String → Option (List Nat)
  | [] => some []
  | n :: rest =>
    match pyIndex button_names n, resolve_non_selectable button_names rest with
    | some i, some is => some (i :: is)
    | _, _ => none

/-! ## File-group removal (`terminal_ui.py` lines 352–426)

`os.listdir`/`os.path.isfile` results are passed in as an explicit file list;
`os.remove` side effects and `print` output become components of the result. -/

/-- `rm_files` (lines 352–356): `removed` is initialised empty, every file of
the argument is removed, and `removed` — to which nothing is ever appended —
is returned.  The result pair is (files the `os.remove` loop deleted, the
returned `removed` list). -/
def rm_files (files : List String) : List String × List String :=
  (files, [])

/-- `successfully_removed_message_for_file` (lines 359–360). -/
def successfully_removed_message_for_file (filename : String) : String :=
  s!"Файл: \x22{filename}\x22 успешно удален!"

/-- `rm_files_contains` (lines 373–375): removes the files containing the
substring and prints one confirmation line per element of `rm_files`'s return
value.  The result pair is (deleted files, printed confirmation lines). -/
def rm_files_contains (s : String) (files : List String) : List String × List String :=
  let r := rm_files (files.filter (fun f => pyIn s f))
  (r.1, r.2.map successfully_removed_message_for_file)

/-- `files_in_cwd_with_exts` (lines 245–256) with the directory listing made
explicit: for each extension, the files of the listing ending in `"." + ext`,
concatenated in extension order. -/
def files_in_cwd_with_exts (exts : List String) (cwdFiles : List String) : List String :=
  exts.flatMap (fun ext => cwdFiles.filter (fun f => pyEndsWith f ("." ++ ext)))

/-- `rm_files_by_extension(ext)` (lines 378–380): the argument `ext` is
unused — the Python body passes the literal list `["ext"]` to
`files_in_cwd_with_exts`, so the files ending in `".ext"` are removed.  The
result pair is (deleted files, printed confirmation lines). -/
def rm_files_by_extension (_ext : String) (cwdFiles : List String) : List String × List String :=
  let r := rm_files (files_in_cwd_with_exts ["ext"] cwdFiles)
  (r.1, r.2.map successfully_removed_message_for_file)

/-- The delete-by-substring path of `rm_files_group` (lines 407–415): the
validated-input prompt with validators `[not_empty]` is fed the given input
lines, and on acceptance `rm_files_contains` runs with the accepted substring
over the supplied file list; `none` when the input lines never satisfy the
prompt. -/
def delete_by_substring_scenario (inputLines files : List String) :
    Option (List String × List String) :=
  (validated_input [not_empty] inputLines).accepted.map
    (fun s => rm_files_contains s files)

/-! ## The per-file conversion menus (`terminal_ui.py` lines 259–288)

The list comprehensions of `pdf_to_docx` and `docx_to_pdf` build one `Button`
per listed file.  `Button(file, …)` evaluates its first argument at
construction time, so the displayed name is that iteration's file; but the
`lambda` bodies close over the comprehension variable `file` itself, which
all buttons share, and the menu can only be navigated after the comprehension
has finished, when that variable holds the *last* file of the list.  Each
button is therefore modelled as (displayed name, the file its action converts
when pressed), the latter `files.getLast?`. -/

def pdf_to_docx_file_buttons (files : List String) : List (String × Option String) :=
  files.map (fun file => (file, files.getLast?))

def docx_to_pdf_file_buttons (files : List String) : List (String × Option String) :=
  files.map (fun file => (file, files.getLast?))

/-! ## Theorems -/

/-- C7: `not_empty` fails exactly on the empty string and on strings
consisting solely of whitespace; every other string passes. -/
theorem not_empty_fails_iff_blank (s : String) :
    (not_empty s).isSome = true ↔ (s.data = [] ∨ ∀ c ∈ s.data, isPySpace c = true) := by
  unfold not_empty pyStrIsSpace
  rcases hd : s.data with _ | ⟨c, cs⟩ <;> simp [hd, List.all_eq_true]

/-- C8: `only_digit_validator` fails exactly on the strings `float()` cannot
parse; in particular it passes `"3.14"` and `"-2"` and fails `"abc"` and
`""`. -/
theorem only_digit_validator_fails_iff_unparsable :
    (∀ s : String, (only_digit_validator s).isSome = true ↔ pyFloatParses s = false) ∧
    only_digit_validator "3.14" = none ∧
    only_digit_validator "-2" = none ∧
    (only_digit_validator "abc").isSome = true ∧
    (only_digit_validator "").isSome = true := by
  refine ⟨fun s => ?_, by decide, by decide, by decide, by decide⟩
  unfold only_digit_validator
  cases h : pyFloatParses s <;> simp [h]

/-- C6: `list_len_validator n sep` fails exactly when splitting on `sep` does
not yield `n` tokens, and its message reports the actual count; with
`n = 3, sep = " "` it passes `"a b c"` and fails `"a b"` reporting `2`. -/
theorem list_len_validator_counts_tokens :
    (∀ (n : Nat) (sep s : String),
      (list_len_validator n sep s).isSome = true ↔ (pySplit sep s).length ≠ n) ∧
    (∀ (n : Nat) (sep s : String), (pySplit sep s).length ≠ n →
      list_len_validator n sep s = some (lenErrMsg n (pySplit sep s).length)) ∧
    list_len_validator 3 " " "a b c" = none ∧
    list_len_validator 3 " " "a b" = some (lenErrMsg 3 2) ∧
    lenErrMsg 3 2 = "Количество элементов должно равняться 3. Сейчас 2." := by
  refine ⟨fun n sep s => ?_, fun n sep s h => ?_, by decide, by decide, by decide⟩
  · unfold list_len_validator
    by_cases h : (pySplit sep s).length ≠ n <;> simp [h]
  · simp [list_len_validator, h]

/-- C9: with an empty validator list, `validated_input` accepts the very
first input line — whatever it is, the empty string included — with no
re-prompt, no displayed errors, and one hook run. -/
theorem validated_input_empty_validators (value : String) (rest : List String) :
    validated_input [] (value :: rest) = ⟨some value, 1, [], 1⟩ := rfl

/-- C1 (recording the code bug): in the delete-by-substring scenario the
prompt rejects `""` and accepts `"draft"`, both files containing `"draft"`
are deleted, yet the printed confirmation list is empty — `rm_files` returns
its never-appended `removed` list, so no per-file confirmation is printed. -/
theorem delete_by_substring_removes_without_confirmations :
    delete_by_substring_scenario ["", "draft"] ["draft1.txt", "notes.txt", "draft2.txt"] =
      some (["draft1.txt", "draft2.txt"], []) := by decide

/-- C3: `rm_files_by_extension` ignores the user-supplied extension — any two
arguments select and delete exactly the same files, namely those ending in
the hard-coded placeholder `".ext"`. -/
theorem rm_files_by_extension_ignores_argument :
    (∀ (e1 e2 : String) (cwdFiles : List String),
      rm_files_by_extension e1 cwdFiles = rm_files_by_extension e2 cwdFiles) ∧
    (∀ (e : String) (cwdFiles : List String),
      (rm_files_by_extension e cwdFiles).1 =
        cwdFiles.filter (fun f => pyEndsWith f ".ext")) := by
  refine ⟨fun e1 e2 cw => rfl, fun e cw => ?_⟩
  simp [rm_files_by_extension, rm_files, files_in_cwd_with_exts]

/-- C10, counterexample to the claim as stated: with `["a.pdf", "b.pdf"]` the
button displaying `"b.pdf"` (the last file) converts exactly the file whose
name it displays, so "pressing any file's button converts … not the file
whose name is displayed" fails. -/
theorem pdf_to_docx_claim_counterexample :
    ¬ (∀ (files : List String), 2 ≤ files.length →
        ∀ b ∈ pdf_to_docx_file_buttons files,
          b.2 = files.getLast? ∧ b.2 ≠ some b.1) := by
  intro h
  exact (h ["a.pdf", "b.pdf"] (by decide)
    ("b.pdf", some "b.pdf") (by decide)).2 rfl

/-- C10, amended: in both conversion menus every file button's action
converts the last file of the list, so every button whose displayed name is
not the last file's name converts a file other than the one it displays. -/
theorem pdf_docx_buttons_convert_last (files : List String) :
    (∀ b ∈ pdf_to_docx_file_buttons files,
      b.2 = files.getLast? ∧ (some b.1 ≠ files.getLast? → b.2 ≠ some b.1)) ∧
    (∀ b ∈ docx_to_pdf_file_buttons files,
      b.2 = files.getLast? ∧ (some b.1 ≠ files.getLast? → b.2 ≠ some b.1)) := by
  constructor <;>
  · intro b hb
    obtain ⟨f, _, rfl⟩ := List.mem_map.mp hb
    exact ⟨rfl, fun hne heq => hne heq.symm⟩

/-- The collected element errors are empty exactly when every element
validator passes on every token. -/
theorem elemErrors_eq_nil_iff (vals : List Validator) (toks : List String) :
    elemErrors vals toks = [] ↔ ∀ elem ∈ toks, ∀ v ∈ vals, v elem = none := by
  unfold elemErrors
  rw [List.flatMap_eq_nil_iff]
  constructor
  · intro h elem helem v hv
    obtain ⟨i, hi⟩ := List.mem_iff_get?.mp helem
    have hp := (List.filterMap_eq_nil_iff.mp
      (h (i, elem) (List.mk_mem_enum_iff_get?.mpr hi))) v hv
    simpa using hp
  · intro h p hp
    rw [List.filterMap_eq_nil_iff]
    intro v hv
    have h2 : p.2 ∈ toks := by
      rcases p with ⟨i, elem⟩
      exact List.get?_mem (List.mk_mem_enum_iff_get?.mp hp)
    simp [h p.2 h2 v hv]

/-- C5: `list_elems_validator` passes exactly when no element validator fails
on any token of the split; otherwise it fails once with the newline-joined
collection of all tagged failures, and every single failure — not just the
first — appears in that collection tagged with the token's value and index.
With separator `" "` and validators `[only_digit_validator]`, `"1 2 x"`
fails with exactly the one error naming token `"x"` at index `2`, and
`"1 2 3"` passes. -/
theorem list_elems_validator_aggregates_all :
    (∀ (sep : String) (vals : List Validator) (s : String),
      list_elems_validator sep vals s = none ↔
        ∀ elem ∈ pySplit sep s, ∀ v ∈ vals, v elem = none) ∧
    (∀ (sep : String) (vals : List Validator) (s msg : String),
      list_elems_validator sep vals s = some msg →
        msg = String.intercalate "\n" (elemErrors vals (pySplit sep s))) ∧
    (∀ (vals : List Validator) (toks : List String) (i : Nat) (elem : String)
        (v : Validator) (m : String),
      toks.get? i = some elem → v ∈ vals → v elem = some m →
        elemErrMsg elem i m ∈ elemErrors vals toks) ∧
    list_elems_validator " " [only_digit_validator] "1 2 x" =
      some "Ошибка для элемента \x27x\x27 под номером 2: Значение \x27x\x27 не является числом." ∧
    list_elems_validator " " [only_digit_validator] "1 2 3" = none := by
  refine ⟨fun sep vals s => ?_, fun sep vals s msg h => ?_,
    fun vals toks i elem v m hget hv hm => ?_, by decide, by decide⟩
  · rw [← elemErrors_eq_nil_iff vals (pySplit sep s)]
    unfold list_elems_validator
    by_cases h : (elemErrors vals (pySplit sep s)).length ≠ 0 <;>
      simp [h, ← List.length_eq_zero]
    omega
  · unfold list_elems_validator at h
    by_cases hc : (elemErrors vals (pySplit sep s)).length ≠ 0
    · simpa [hc] using h.symm
    · simp [hc] at h
  · exact List.mem_flatMap.mpr ⟨(i, elem), List.mk_mem_enum_iff_get?.mpr hget,
      List.mem_filterMap.mpr ⟨v, hv, by simp [hm]⟩⟩

/-- `pyIndex` returns `none` exactly when the sought name does not occur. -/
theorem pyIndex_none_iff (l : List String) (x : String) :
    pyIndex l x = none ↔ x ∉ l := by
  induction l with
  | nil => simp [pyIndex]
  | cons a rest ih =>
    by_cases h : a = x
    · simp [pyIndex, h]
    · simp [pyIndex, h, Option.map_eq_none', ih, Ne.symm h]

/-- A successful `pyIndex` lookup is the index of the first occurrence. -/
theorem pyIndex_first_occurrence (l : List String) (x : String) :
    ∀ j, pyIndex l x = some j →
      l.get? j = some x ∧ ∀ j' < j, l.get? j' ≠ some x := by
  induction l with
  | nil => intro j h; simp [pyIndex] at h
  | cons a rest ih =>
    intro j h
    by_cases hax : a = x
    · simp [pyIndex, hax] at h
      subst h
      exact ⟨by simp [hax], by intro j' hj'; omega⟩
    · simp [pyIndex, hax, Option.map_eq_some'] at h
      obtain ⟨j0, hj0, rfl⟩ := h
      obtain ⟨hget, hmin⟩ := ih j0 hj0
      refine ⟨by simpa using hget, ?_⟩
      intro j' hj'
      cases j' with
      | zero => simpa using fun hcontra => hax hcontra
      | succ k => simpa using hmin k (by omega)

/-- C4: the Menu Engine resolves each non-selectable name to the index of
its first occurrence among the displayed names (silently the first when
duplicated), and when some non-selectable name occurs nowhere the resolution
fails with an uncaught `ValueError` (modelled `none`) instead of
proceeding. -/
theorem select_resolution_spec (names ns : List String) :
    ((∀ n ∈ ns, n ∈ names) →
      ∃ idxs, resolve_non_selectable names ns = some idxs ∧
        idxs.length = ns.length ∧
        ∀ k n, ns.get? k = some n →
          ∃ j, idxs.get? k = some j ∧ names.get? j = some n ∧
            ∀ j' < j, names.get? j' ≠ some n) ∧
    ((∃ n ∈ ns, n ∉ names) → resolve_non_selectable names ns = none) := by
  induction ns with
  | nil =>
    refine ⟨fun _ => ⟨[], rfl, rfl, fun k n h => by simp at h⟩, ?_⟩
    rintro ⟨n, hn, -⟩
    simp at hn
  | cons m rest ih =>
    constructor
    · intro h
      have hm : m ∈ names := h m (List.mem_cons_self m rest)
      obtain ⟨i, hi⟩ : ∃ i, pyIndex names m = some i := by
        rcases hcase : pyIndex names m with - | i
        · exact absurd ((pyIndex_none_iff names m).mp hcase) (by simpa using hm)
        · exact ⟨i, rfl⟩
      obtain ⟨idxs, hres, hlen, hspec⟩ :=
        ih.1 (fun n hn => h n (List.mem_cons_of_mem m hn))
      refine ⟨i :: idxs, by simp [resolve_non_selectable, hi, hres], by simp [hlen], ?_⟩
      intro k n hk
      cases k with
      | zero =>
        simp only [List.get?_cons_zero, Option.some_inj] at hk
        subst hk
        obtain ⟨hget, hmin⟩ := pyIndex_first_occurrence names m i hi
        exact ⟨i, by simp, hget, hmin⟩
      | succ k' =>
        simp only [List.get?_cons_succ] at hk
        obtain ⟨j, hj1, hj2⟩ := hspec k' n hk
        exact ⟨j, by simpa using hj1, hj2⟩
    · rintro ⟨n, hn, hnot⟩
      rcases List.mem_cons.mp hn with rfl | hn'
      · simp [resolve_non_selectable, (pyIndex_none_iff names n).mpr hnot]
      · have hrest : resolve_non_selectable names rest = none := ih.2 ⟨n, hn', hnot⟩
        rcases hcase : pyIndex names m with - | i <;>
          simp [resolve_non_selectable, hcase, hrest]

/-- C2: `validated_input` runs every validator against each input line even
when earlier ones fail (every failing validator's message is in the
collected batch), displays each rejected line's full batch, and returns the
first line on which no validator fails, running the post-success hook
exactly once. -/
theorem validated_input_first_pass (validators : List Validator)
    (lines : List String) (i : Nat) (v : String)
    (hv : lines.get? i = some v)
    (hpass : runValidators validators v = [])
    (hfail : ∀ j w, j < i → lines.get? j = some w → runValidators validators w ≠ []) :
    validated_input validators lines =
      ⟨some v, i + 1, (lines.take i).map (runValidators validators), 1⟩ ∧
    ∀ (w m : String) (vl : Validator), vl ∈ validators → vl w = some m →
      m ∈ runValidators validators w := by
  refine ⟨?_, fun w m vl hvl hm => List.mem_filterMap.mpr ⟨vl, hvl, hm⟩⟩
  induction lines generalizing i with
  | nil => simp at hv
  | cons a rest ih =>
    cases i with
    | zero =>
      simp only [List.get?_cons_zero, Option.some_inj] at hv
      subst hv
      simp [validated_input, hpass]
    | succ i' =>
      have hfail0 : runValidators validators a ≠ [] :=
        hfail 0 a (Nat.succ_pos i') (by simp)
      have hlen : (runValidators validators a).length > 0 :=
        List.length_pos.mpr hfail0
      simp only [List.get?_cons_succ] at hv
      have hrec := ih i' hv
        (fun j w hj hw => hfail (j + 1) w (Nat.succ_lt_succ hj) (by simpa using hw))
      simp [validated_input, hlen, hrec, List.take_succ_cons]

/-- Witness for C2 at the spec's own example: with validators `[not_empty]`,
feeding `""` then `"ok"` returns `"ok"` after exactly one re-prompt that
displayed the one error, with one hook run. -/
theorem validated_input_first_pass_witness :
    validated_input [not_empty] ["", "ok"] =
      ⟨some "ok", 2, [["Значение не должно быть пустым."]], 1⟩ :=
  (validated_input_first_pass [not_empty] ["", "ok"] 1 "ok" rfl rfl
    (by
      intro j w hj hw
      have hj0 : j = 0 := by omega
      subst hj0
      simp only [List.get?_cons_zero, Option.some_inj] at hw
      subst hw
      decide)).1

end TerminalUI
